import Mathlib

/-!
Verification of the MediTranslate translation pipeline against its
natural-language specification.

The development shallowly embeds the behavior-bearing parts of the
repository:

* the `TranslationPanel` React component (debounced translation dispatch,
  language/text swap) as a deterministic event-loop executor over an
  explicit session state;
* the `/api/translate` route handler, with the remote generative-language
  gateway abstracted as a function parameter;
* the `/api/analyze-report` route handler, likewise;
* the toast (notice) reducer from `use-toast.ts`.

Machine-level details that carry no behavior (base64 transport encoding of
file bytes, JSON wire framing) are abstracted: file contents and prompts
are plain strings, and the gateway is a parameter `String → Except String
String` (or its analogue), so every environment behavior is quantified
over.
-/

namespace MediTranslate

/-! ## Swap Coordinator (`swapLanguages` in `TranslationPanel`)

The handler reads the four state fields and writes them back permuted;
React batches the four `setState` calls into one atomic update, so the
handler is a pure function on the 4-field state. -/

structure SwapState where
  sourceLanguage : String
  targetLanguage : String
  originalText : String
  translatedText : String
deriving DecidableEq, Repr

def swapLanguages (st : SwapState) : SwapState :=
  { sourceLanguage := st.targetLanguage
    targetLanguage := st.sourceLanguage
    originalText := st.translatedText
    translatedText := st.originalText }

/-! ## Debounced Request Dispatcher (`TranslationPanel` effect)

The `useEffect` body defines `translateText` and schedules it on a 500 ms
timer; the effect cleanup clears the previous timer.  The effect re-runs
exactly when one of its dependencies `originalText`, `sourceLanguage`,
`targetLanguage` changes (the `toast` dependency is a stable reference).
`translateText` itself checks for empty text (clearing the result and
returning without a network call), otherwise dispatches a fetch carrying
the triple captured by the effect closure, and on completion either
applies the translation or, on an error, shows one toast; `finally` it
clears the loading flag.  Nothing cancels or suppresses a fetch that has
already been dispatched.

We model the browser event loop as a deterministic executor over a list of
timestamped external events (user input changes and network completions);
a due timer fires before the next external event is processed, which is
the real-time order. -/

structure Triple where
  text : String
  sourceLanguage : String
  targetLanguage : String
deriving DecidableEq, Repr

inductive Resp where
  | ok (translation : String)
  | err (message : String)
deriving DecidableEq, Repr

structure PanelState where
  sourceLanguage : String
  targetLanguage : String
  originalText : String
  translatedText : String
  isTranslating : Bool
  /-- the single-slot debounce timer: deadline and the triple captured by
  the effect closure at schedule time -/
  timer : Option (Nat × Triple)
  /-- dispatched fetches whose responses have not yet arrived (id, triple) -/
  inflight : List (Nat × Triple)
  nextId : Nat
  /-- log of network calls actually dispatched, oldest first -/
  calls : List Triple
  /-- number of failure notices (toasts) shown -/
  toasts : Nat
deriving DecidableEq, Repr

def PanelState.triple (st : PanelState) : Triple :=
  ⟨st.originalText, st.sourceLanguage, st.targetLanguage⟩

def DEBOUNCE_MS : Nat := 500

/-- Initial state: the `useState` initializers, plus the timer scheduled by
the mount run of the effect (mount at time 0). -/
def initPanel : PanelState :=
  { sourceLanguage := "en-US"
    targetLanguage := "es-ES"
    originalText := ""
    translatedText := ""
    isTranslating := false
    timer := some (DEBOUNCE_MS, ⟨"", "en-US", "es-ES"⟩)
    inflight := []
    nextId := 0
    calls := []
    toasts := 0 }

/-- The scheduled `translateText` fires: with empty captured text it clears
the result and returns (no network call); otherwise it sets the loading
flag and dispatches the fetch with the captured triple. -/
def fireTimer (st : PanelState) : PanelState :=
  match st.timer with
  | none => st
  | some (_, tr) =>
    if tr.text = "" then
      { st with translatedText := "", timer := none }
    else
      { st with isTranslating := true
                timer := none
                inflight := st.inflight ++ [(st.nextId, tr)]
                nextId := st.nextId + 1
                calls := st.calls ++ [tr] }

/-- A timer whose deadline has passed fires before the next external event
is handled. -/
def fireIfDue (t : Nat) (st : PanelState) : PanelState :=
  match st.timer with
  | some (d, _) => if d ≤ t then fireTimer st else st
  | none => st

/-- Effect re-run after a state update at time `t`: if the dependency
triple changed, the cleanup clears the pending timer and a new one is
scheduled with the current triple; otherwise React skips the re-render and
the effect (and its timer) is untouched. -/
def runEffect (t : Nat) (old : Triple) (st : PanelState) : PanelState :=
  if st.triple = old then st
  else { st with timer := some (t + DEBOUNCE_MS, st.triple) }

/-- A fetch completes: the `.then`/`catch`/`finally` of `translateText`.
On success the translation is applied unconditionally (nothing marks it
stale); on error one toast is shown and the displayed translation is left
as it was; `finally` clears the loading flag.  Only an outstanding request
can complete. -/
def applyComplete (st : PanelState) (id : Nat) (resp : Resp) : PanelState :=
  if st.inflight.any (fun p => p.1 == id) then
    let st1 := { st with inflight := st.inflight.filter (fun p => p.1 != id) }
    let st2 := match resp with
      | .ok tx => { st1 with translatedText := tx }
      | .err _ => { st1 with toasts := st1.toasts + 1 }
    { st2 with isTranslating := false }
  else st

/-- External events: the three dependency-changing inputs, the swap
button, and a network completion. -/
inductive Ev where
  | setText (s : String)
  | setSource (s : String)
  | setTarget (s : String)
  | swap
  | complete (id : Nat) (resp : Resp)
deriving DecidableEq, Repr

def Ev.isSetter : Ev → Bool
  | .setText _ => true
  | .setSource _ => true
  | .setTarget _ => true
  | _ => false

/-- Input events are the user-driven ones; completions arrive from the
network. -/
def Ev.isInput : Ev → Bool
  | .complete _ _ => false
  | _ => true

/-- The swap handler followed by the effect re-run it triggers. -/
def swapStep (t : Nat) (st : PanelState) : PanelState :=
  runEffect t st.triple
    { st with sourceLanguage := st.targetLanguage
              targetLanguage := st.sourceLanguage
              originalText := st.translatedText
              translatedText := st.originalText }

/-- Handle one external event against the state of the event loop at its
arrival (state update plus the effect re-run it triggers, for input
events). -/
def handleEvent (t : Nat) (st : PanelState) : Ev → PanelState
  | .complete id resp => applyComplete st id resp
  | .setText s => runEffect t st.triple { st with originalText := s }
  | .setSource s => runEffect t st.triple { st with sourceLanguage := s }
  | .setTarget s => runEffect t st.triple { st with targetLanguage := s }
  | .swap => swapStep t st

/-- Process one timestamped external event: first fire a due timer, then
handle the event. -/
def procEvent (st : PanelState) (te : Nat × Ev) : PanelState :=
  handleEvent te.1 (fireIfDue te.1 st) te.2

def runTrace (evs : List (Nat × Ev)) : PanelState :=
  evs.foldl procEvent initPanel

/-- Let the quiet period elapse: the pending timer, if any, fires. -/
def settle (st : PanelState) : PanelState :=
  fireTimer st

/-! Trace well-formedness notions used by the temporal claims. -/

/-- The triple as updated by a setter event (fetch dispatch and completion
never modify the dependency triple). -/
def applySetter (tr : Triple) : Ev → Triple
  | .setText s => { tr with text := s }
  | .setSource s => { tr with sourceLanguage := s }
  | .setTarget s => { tr with targetLanguage := s }
  | _ => tr

def finalTriple (tr : Triple) (evs : List (Nat × Ev)) : Triple :=
  evs.foldl (fun a te => applySetter a te.2) tr

/-- Timestamps strictly increase and consecutive events are less than the
quiet interval apart. -/
def spaced : List (Nat × Ev) → Bool
  | [] => true
  | [_] => true
  | (t, _) :: (t', e') :: rest =>
    decide (t < t') && decide (t' < t + DEBOUNCE_MS) && spaced ((t', e') :: rest)

/-- Every event actually changes the dependency triple (a `setState` to an
identical value does not re-render, hence is not a change event). -/
def changing (tr : Triple) : List (Nat × Ev) → Bool
  | [] => true
  | (_, e) :: rest =>
    !(decide (applySetter tr e = tr)) && changing (applySetter tr e) rest

def lastTime (dflt : Nat) (evs : List (Nat × Ev)) : Nat :=
  evs.foldl (fun _ te => te.1) dflt

def allSetters (evs : List (Nat × Ev)) : Bool :=
  evs.all (fun te => te.2.isSetter)

/-- The pending timer, if any, either has its deadline after the first
event of the trace or captured empty text (so that a premature fire
dispatches nothing). -/
def timerOk (evs : List (Nat × Ev)) (st : PanelState) : Prop :=
  ∀ d tr, st.timer = some (d, tr) →
    (match evs with
     | [] => True
     | te :: _ => te.1 < d) ∨ tr.text = ""

/-- A trace in which a second fetch is dispatched while the first is still
awaiting its response: type "Hello", let it settle and fire, type "World"
before the first response arrives, let the second fire, then the second
response arrives before the first ("Mundo" for "World", then "Hola" for
"Hello"). -/
def cexTrace1 : List (Nat × Ev) :=
  [(0, .setText "Hello"), (600, .setText "World"),
   (1200, .complete 1 (.ok "Mundo")), (1300, .complete 0 (.ok "Hola"))]

/-- A trace that types "Hello", lets the translation "Hola" arrive, then
clears the text. -/
def cexTrace2 : List (Nat × Ev) :=
  [(0, .setText "Hello"), (600, .complete 0 (.ok "Hola")), (700, .setText "")]

/-! ## `/api/translate` route handler

The gateway (`model.generateContent` … `response.text()`) is a parameter
`gw : String → Except String String` from the prompt to the translation or
a thrown error.  A missing JSON field destructures to `undefined`, which is
falsy exactly like the empty string, so absent and empty parameters are
both modeled by `""`.  The response records status and body fields, plus
(as instrumentation) the prompt dispatched to the gateway, if any. -/

def languageMap : List (String × String) :=
  [("en-US", "English"), ("es-ES", "Spanish"), ("fr-FR", "French"),
   ("de-DE", "German"), ("it-IT", "Italian"), ("pt-PT", "Portuguese"),
   ("nl-NL", "Dutch"), ("pl-PL", "Polish"), ("ru-RU", "Russian"),
   ("ja-JP", "Japanese"), ("ko-KR", "Korean"), ("zh-CN", "Chinese (Simplified)"),
   ("ar-SA", "Arabic"), ("hi-IN", "Hindi"), ("tr-TR", "Turkish")]

def lookupLang (code : String) : Option String :=
  (languageMap.find? (fun p => p.1 == code)).map (fun p => p.2)

/-- `languageMap[code] || code`: the mapped display name when present,
otherwise the code itself (the map's values are all truthy). -/
def resolveLang (code : String) : String :=
  (lookupLang code).getD code

def mkPrompt (sourceLang targetLang text : String) : String :=
  "Translate the following text from " ++ sourceLang ++ " to " ++ targetLang ++
  ". \n    If there are medical terms, ensure they are accurately translated while maintaining their medical meaning.\n    \n    Text to translate: \"" ++
  text ++ "\"\n    \n    Provide only the translation without any additional explanations or notes."

structure TranslateResponse where
  status : Nat
  translation : Option String
  error : Option String
  /-- instrumentation: the prompt sent to the gateway (`none` when the
  handler returned without contacting it) -/
  sentPrompt : Option String
deriving DecidableEq, Repr

def translatePOST (gw : String → Except String String)
    (text sourceLanguage targetLanguage : String) : TranslateResponse :=
  if text = "" ∨ sourceLanguage = "" ∨ targetLanguage = "" then
    { status := 400, translation := none
      error := some "Missing required parameters", sentPrompt := none }
  else
    let prompt := mkPrompt (resolveLang sourceLanguage) (resolveLang targetLanguage) text
    match gw prompt with
    | .ok translation =>
      { status := 200, translation := some translation
        error := none, sentPrompt := some prompt }
    | .error _ =>
      { status := 500, translation := none
        error := some "Failed to translate text", sentPrompt := some prompt }

/-! ## `/api/analyze-report` route handler

File bytes are modeled as the decoded string (the base64 transport
encoding of the image branch is a bijection carrying no behavior).  The
gateway argument distinguishes a bare text prompt from a file part paired
with an instruction string, mirroring the two `generateContent` call
shapes in the route. -/

inductive GenContent where
  | textOnly (prompt : String)
  | withFile (data : String) (mimeType : String) (instruction : String)
deriving DecidableEq, Repr

def analysisInstruction : String :=
  "Please analyze this medical report and provide a detailed analysis including key findings, possible diagnoses, and recommendations. Format the response in clear sections."

structure UploadedFile where
  fileType : String
  content : String
deriving DecidableEq, Repr

structure AnalyzeResponse where
  status : Nat
  analysis : Option String
  error : Option String
  /-- instrumentation: the request sent to the gateway, if any -/
  sent : Option GenContent
deriving DecidableEq, Repr

def analyzeReportPOST (gw : GenContent → Except String String)
    (file : Option UploadedFile) : AnalyzeResponse :=
  match file with
  | none =>
    { status := 400, analysis := none, error := some "No file provided", sent := none }
  | some f =>
    if f.fileType = "text/plain" then
      match gw (.textOnly f.content) with
      | .ok r =>
        { status := 200, analysis := some r, error := none
          sent := some (.textOnly f.content) }
      | .error _ =>
        { status := 500, analysis := none
          error := some "Failed to analyze medical report"
          sent := some (.textOnly f.content) }
    else
      let req := GenContent.withFile f.content f.fileType analysisInstruction
      match gw req with
      | .ok r =>
        { status := 200, analysis := some r, error := none, sent := some req }
      | .error _ =>
        { status := 500, analysis := none
          error := some "Failed to analyze medical report", sent := some req }

/-! ## Toast reducer (`use-toast.ts`)

`Partial<ToasterToast>` keys that are absent from an update are modeled as
`none`; the spread `{...t, ...action.toast}` keeps the old value for
absent keys. -/

def TOAST_LIMIT : Nat := 1

structure ToasterToast where
  id : String
  title : Option String
  description : Option String
  variant : Option String
  openFlag : Bool
deriving DecidableEq, Repr

structure ToastUpdate where
  id : String
  title : Option String
  description : Option String
  variant : Option String
  openFlag : Option Bool
deriving DecidableEq, Repr

def mergeToast (t : ToasterToast) (u : ToastUpdate) : ToasterToast :=
  { id := u.id
    title := match u.title with | some v => some v | none => t.title
    description := match u.description with | some v => some v | none => t.description
    variant := match u.variant with | some v => some v | none => t.variant
    openFlag := u.openFlag.getD t.openFlag }

inductive ToastAction where
  | addToast (toast : ToasterToast)
  | updateToast (toast : ToastUpdate)
  | dismissToast (toastId : Option String)
  | removeToast (toastId : Option String)
deriving DecidableEq, Repr

structure ToastState where
  toasts : List ToasterToast
deriving DecidableEq, Repr

def reducer (state : ToastState) (action : ToastAction) : ToastState :=
  match action with
  | .addToast t =>
    { state with toasts := (t :: state.toasts).take TOAST_LIMIT }
  | .updateToast u =>
    { state with toasts :=
        state.toasts.map (fun t => if t.id = u.id then mergeToast t u else t) }
  | .dismissToast toastId =>
    { state with toasts :=
        state.toasts.map (fun t =>
          if toastId = some t.id ∨ toastId = none
          then { t with openFlag := false } else t) }
  | .removeToast toastId =>
    match toastId with
    | none => { state with toasts := [] }
    | some i => { state with toasts := state.toasts.filter (fun t => t.id ≠ i) }

def memoryState : ToastState := ⟨[]⟩

/-! ## Theorems -/

/-- C5: Swap is an involution: for every state (sourceLanguage,
targetLanguage, originalText, translatedText), applying `swapLanguages`
twice returns the original state. -/
theorem swapLanguages_involution : ∀ st : SwapState, swapLanguages (swapLanguages st) = st :=
  fun _ => rfl

/-- C4: The swap handler (with the effect re-run it triggers) produces
exactly the permuted state (targetLanguage, sourceLanguage,
translatedText, originalText) as one atomic update, and dispatches no
network call: the call log and the set of in-flight requests are
unchanged. -/
theorem swapStep_spec : ∀ (t : Nat) (st : PanelState),
    (swapStep t st).sourceLanguage = st.targetLanguage ∧
    (swapStep t st).targetLanguage = st.sourceLanguage ∧
    (swapStep t st).originalText = st.translatedText ∧
    (swapStep t st).translatedText = st.originalText ∧
    (swapStep t st).calls = st.calls ∧
    (swapStep t st).inflight = st.inflight := by
  intro t st
  unfold swapStep runEffect
  split <;> exact ⟨rfl, rfl, rfl, rfl, rfl, rfl⟩

lemma reducer_length_le (st : ToastState) (a : ToastAction)
    (h : st.toasts.length ≤ TOAST_LIMIT) :
    ((reducer st a).toasts).length ≤ TOAST_LIMIT := by
  cases a with
  | addToast t =>
    simp only [reducer, List.length_take]
    exact Nat.min_le_left _ _
  | updateToast u => simpa [reducer] using h
  | dismissToast i => simpa [reducer] using h
  | removeToast i =>
    cases i with
    | none => simp [reducer, TOAST_LIMIT]
    | some i => exact le_trans (by simpa [reducer] using List.length_filter_le _ st.toasts) h

lemma reducer_foldl_le (acts : List ToastAction) (st : ToastState)
    (h : st.toasts.length ≤ TOAST_LIMIT) :
    ((acts.foldl reducer st).toasts).length ≤ TOAST_LIMIT := by
  induction acts generalizing st with
  | nil => simpa using h
  | cons a rest ih => exact ih _ (reducer_length_le st a h)

/-- C10: Every state of the toast store reachable from the initial state
by reducer actions holds at most `TOAST_LIMIT` = 1 toast, and adding a new
toast always leaves exactly the new toast, evicting any notice still
displayed. -/
theorem toast_limit_invariant :
    (∀ actions : List ToastAction,
      ((actions.foldl reducer memoryState).toasts).length ≤ TOAST_LIMIT) ∧
    (∀ (st : ToastState) (t : ToasterToast),
      (reducer st (.addToast t)).toasts = [t]) := by
  constructor
  · intro actions
    exact reducer_foldl_le actions memoryState (by simp [memoryState])
  · intro st t
    simp [reducer, TOAST_LIMIT]

/-- C7: For every gateway behavior and every request, the translate
endpoint returns a body with exactly one of the `translation` / `error`
fields: `translation` exactly when the status is 200, status 400 exactly
when a parameter is missing (falsy), status 500 exactly when the
parameters are present but the gateway call fails, and no other status
occurs. -/
theorem translatePOST_response_shape
    (gw : String → Except String String) (text s t : String) :
    ((translatePOST gw text s t).translation.isSome ↔
      (translatePOST gw text s t).error = none) ∧
    ((translatePOST gw text s t).status = 200 ↔
      (translatePOST gw text s t).translation.isSome) ∧
    ((translatePOST gw text s t).status = 400 ↔ (text = "" ∨ s = "" ∨ t = "")) ∧
    ((translatePOST gw text s t).status = 500 ↔
      (¬(text = "" ∨ s = "" ∨ t = "") ∧
        ∃ m, gw (mkPrompt (resolveLang s) (resolveLang t) text) = .error m)) ∧
    ((translatePOST gw text s t).status = 200 ∨
      (translatePOST gw text s t).status = 400 ∨
      (translatePOST gw text s t).status = 500) := by
  unfold translatePOST
  split
  · rename_i h
    simp [h]
  · rename_i h
    cases hg : gw (mkPrompt (resolveLang s) (resolveLang t) text) <;> simp [h, hg]

/-- C8: In the analyze-report endpoint, a `text/plain` upload is sent to
the model with the file's raw text as the entire request (no analysis
instruction attached), while any other MIME type is sent as a file part
together with the key-findings/diagnoses/recommendations instruction. -/
theorem analyzeReportPOST_prompt_shape
    (gw : GenContent → Except String String) (c : String) :
    (analyzeReportPOST gw (some ⟨"text/plain", c⟩)).sent = some (.textOnly c) ∧
    (∀ ft : String, ft ≠ "text/plain" →
      (analyzeReportPOST gw (some ⟨ft, c⟩)).sent =
        some (.withFile c ft analysisInstruction)) := by
  constructor
  · unfold analyzeReportPOST
    cases hg : gw (.textOnly c) <;> simp [hg]
  · intro ft hft
    unfold analyzeReportPOST
    cases hg : gw (.withFile c ft analysisInstruction) <;> simp [hft, hg]

/-- Witness for C8 at a concrete gateway, file content and non-text MIME
type. -/
theorem analyzeReportPOST_prompt_shape_witness :
    (analyzeReportPOST (fun _ => Except.ok "A") (some ⟨"text/plain", "hello"⟩)).sent =
      some (.textOnly "hello") ∧
    (analyzeReportPOST (fun _ => Except.ok "A") (some ⟨"image/png", "hello"⟩)).sent =
      some (.withFile "hello" "image/png" analysisInstruction) :=
  ⟨(analyzeReportPOST_prompt_shape (fun _ => Except.ok "A") "hello").1,
   (analyzeReportPOST_prompt_shape (fun _ => Except.ok "A") "hello").2 "image/png"
     (by decide)⟩

/-- C9: The translate endpoint never rejects an unknown language code:
when both codes are absent from the 15-entry language map (and all
parameters are non-empty), the request is still dispatched to the model,
with the code strings themselves standing in verbatim for language names
in the prompt. -/
theorem translatePOST_unknown_lang
    (gw : String → Except String String) (text s t : String)
    (h1 : text ≠ "") (h2 : s ≠ "") (h3 : t ≠ "")
    (h4 : lookupLang s = none) (h5 : lookupLang t = none) :
    (translatePOST gw text s t).sentPrompt = some (mkPrompt s t text) ∧
    (translatePOST gw text s t).status ≠ 400 := by
  have hres : resolveLang s = s := by simp [resolveLang, h4]
  have hret : resolveLang t = t := by simp [resolveLang, h5]
  unfold translatePOST
  rw [if_neg (by simp [h1, h2, h3])]
  rw [hres, hret]
  cases hg : gw (mkPrompt s t text) <;> simp [hg]

/-- Witness for C9 at concrete unknown language codes. -/
theorem translatePOST_unknown_lang_witness :
    (translatePOST (fun _ => Except.ok "Bonjour") "Hello" "xx-XX" "yy-YY").sentPrompt =
      some (mkPrompt "xx-XX" "yy-YY" "Hello") ∧
    (translatePOST (fun _ => Except.ok "Bonjour") "Hello" "xx-XX" "yy-YY").status ≠ 400 :=
  translatePOST_unknown_lang (fun _ => Except.ok "Bonjour") "Hello" "xx-XX" "yy-YY"
    (by decide) (by decide) (by decide) (by decide) (by decide)

/-- C6: Completing an in-flight translation request with a failure
response produces exactly one new failure notice, dispatches no retry (the
call log, timer and everything else needed to issue a call are unchanged),
and leaves the displayed translated text in the single deterministic state
of being retained unchanged. -/
theorem applyComplete_failure (st : PanelState) (id : Nat) (m : String)
    (h : st.inflight.any (fun p => p.1 == id) = true) :
    (applyComplete st id (.err m)).toasts = st.toasts + 1 ∧
    (applyComplete st id (.err m)).translatedText = st.translatedText ∧
    (applyComplete st id (.err m)).calls = st.calls ∧
    (applyComplete st id (.err m)).timer = st.timer ∧
    (applyComplete st id (.err m)).inflight =
      st.inflight.filter (fun p => p.1 != id) := by
  unfold applyComplete
  rw [if_pos h]
  exact ⟨rfl, rfl, rfl, rfl, rfl⟩

/-- C1 is false on the code: in `cexTrace1`, two dispatched calls are
outstanding at once, and the earlier in-flight request's completion is not
a no-op — it overwrites the newer request's already-applied result, leaving
the stale translation "Hola" displayed for the settled input "World". -/
theorem stale_overwrite_cex :
    (fireIfDue 1200 (runTrace (cexTrace1.take 2))).inflight.length = 2 ∧
    (runTrace (cexTrace1.take 3)).translatedText = "Mundo" ∧
    (runTrace cexTrace1).translatedText = "Hola" ∧
    (runTrace cexTrace1).originalText = "World" := by
  refine ⟨by decide, by decide, by decide, by decide⟩

lemma fireIfDue_not_due (t : Nat) (st : PanelState) (d : Nat) (tr : Triple)
    (htimer : st.timer = some (d, tr)) (ht : t < d) : fireIfDue t st = st := by
  unfold fireIfDue
  rw [htimer]
  show (if d ≤ t then fireTimer st else st) = st
  exact if_neg (by omega)

/-- Handling an input event never dispatches a call; the timer afterwards
is either untouched (dependencies unchanged) or the freshly scheduled
slot. -/
lemma handleEvent_input_frame (t : Nat) (st : PanelState) (e : Ev)
    (he : e.isInput = true) :
    (handleEvent t st e).calls = st.calls ∧
    (handleEvent t st e).inflight = st.inflight ∧
    ((handleEvent t st e).timer = st.timer ∨
     (handleEvent t st e).timer =
       some (t + DEBOUNCE_MS, (handleEvent t st e).triple)) := by
  cases e with
  | complete id r => simp [Ev.isInput] at he
  | setText s =>
    simp only [handleEvent, runEffect]
    split
    · exact ⟨rfl, rfl, Or.inl rfl⟩
    · exact ⟨rfl, rfl, Or.inr rfl⟩
  | setSource s =>
    simp only [handleEvent, runEffect]
    split
    · exact ⟨rfl, rfl, Or.inl rfl⟩
    · exact ⟨rfl, rfl, Or.inr rfl⟩
  | setTarget s =>
    simp only [handleEvent, runEffect]
    split
    · exact ⟨rfl, rfl, Or.inl rfl⟩
    · exact ⟨rfl, rfl, Or.inr rfl⟩
  | swap =>
    simp only [handleEvent, swapStep, runEffect]
    split
    · exact ⟨rfl, rfl, Or.inl rfl⟩
    · exact ⟨rfl, rfl, Or.inr rfl⟩

/-- C1 amended: at most one *scheduled (not-yet-fired)* call exists at any
time, and an input event arriving before the pending timer's deadline
cancels it — nothing is dispatched by that event's processing; however,
requests already dispatched are not suppressed: completing any in-flight
request always applies its result to Session State. -/
theorem debounce_single_slot (st : PanelState) (d : Nat) (tr : Triple)
    (t : Nat) (e : Ev)
    (htimer : st.timer = some (d, tr)) (ht : t < d) (he : e.isInput = true) :
    ((procEvent st (t, e)).calls = st.calls ∧
     (procEvent st (t, e)).inflight = st.inflight ∧
     ((procEvent st (t, e)).timer = st.timer ∨
      (procEvent st (t, e)).timer =
        some (t + DEBOUNCE_MS, (procEvent st (t, e)).triple))) ∧
    (∀ (st' : PanelState) (id : Nat) (tx : String),
      st'.inflight.any (fun p => p.1 == id) = true →
      (applyComplete st' id (.ok tx)).translatedText = tx) := by
  have hmain : procEvent st (t, e) = handleEvent t st e := by
    show handleEvent (t, e).1 (fireIfDue (t, e).1 st) (t, e).2 = handleEvent t st e
    rw [show ((t, e).1 : Nat) = t from rfl, show ((t, e).2 : Ev) = e from rfl,
        fireIfDue_not_due t st d tr htimer ht]
  constructor
  · rw [hmain]
    exact handleEvent_input_frame t st e he
  · intro st' id tx h
    unfold applyComplete
    rw [if_pos h]

/-- Witness for C1's amended statement: a concrete input event before the
mount timer's deadline dispatches nothing, and a concrete in-flight
completion applies its result. -/
theorem debounce_single_slot_witness :
    (procEvent initPanel (0, Ev.setText "Hi")).calls = initPanel.calls ∧
    (applyComplete
      { initPanel with inflight := [(3, ⟨"Hey", "en-US", "es-ES"⟩)] }
      3 (.ok "X")).translatedText = "X" :=
  ⟨(debounce_single_slot initPanel DEBOUNCE_MS ⟨"", "en-US", "es-ES"⟩ 0
      (Ev.setText "Hi") rfl (by decide) (by decide)).1.1,
   (debounce_single_slot initPanel DEBOUNCE_MS ⟨"", "en-US", "es-ES"⟩ 0
      (Ev.setText "Hi") rfl (by decide) (by decide)).2 _ 3 "X" (by decide)⟩

/-- C2 is false on the code: when the text becomes empty, the displayed
translation is NOT cleared immediately (it still reads "Hola" right after
the input event) and a debounce timer IS scheduled; the clear only happens
when that timer fires 500 ms later. -/
theorem empty_text_cex :
    (runTrace cexTrace2).translatedText = "Hola" ∧
    (runTrace cexTrace2).timer = some (1200, ⟨"", "en-US", "es-ES"⟩) ∧
    (settle (runTrace cexTrace2)).translatedText = "" := by
  refine ⟨by decide, by decide, by decide⟩

lemma fireTimer_calls_mem (st : PanelState) (c : Triple)
    (hc : c ∈ (fireTimer st).calls) : c ∈ st.calls ∨ c.text ≠ "" := by
  unfold fireTimer at hc
  split at hc
  · exact Or.inl hc
  · split at hc
    · exact Or.inl hc
    · rename_i tr hemp
      simp only [List.mem_append, List.mem_singleton] at hc
      cases hc with
      | inl h => exact Or.inl h
      | inr h => exact Or.inr (h ▸ hemp)

lemma fireIfDue_calls_mem (t : Nat) (st : PanelState) (c : Triple)
    (hc : c ∈ (fireIfDue t st).calls) : c ∈ st.calls ∨ c.text ≠ "" := by
  unfold fireIfDue at hc
  split at hc
  · split at hc
    · exact fireTimer_calls_mem st c hc
    · exact Or.inl hc
  · exact Or.inl hc

lemma applyComplete_calls (st : PanelState) (id : Nat) (r : Resp) :
    (applyComplete st id r).calls = st.calls := by
  unfold applyComplete
  split
  · cases r <;> rfl
  · rfl

lemma runEffect_calls (t : Nat) (old : Triple) (st : PanelState) :
    (runEffect t old st).calls = st.calls := by
  unfold runEffect
  split <;> rfl

lemma handleEvent_calls (t : Nat) (st : PanelState) (e : Ev) :
    (handleEvent t st e).calls = st.calls := by
  cases e with
  | complete id r => exact applyComplete_calls st id r
  | setText s => exact runEffect_calls t st.triple _
  | setSource s => exact runEffect_calls t st.triple _
  | setTarget s => exact runEffect_calls t st.triple _
  | swap => exact runEffect_calls t st.triple _

lemma procEvent_calls_mem (st : PanelState) (te : Nat × Ev) (c : Triple)
    (hc : c ∈ (procEvent st te).calls) : c ∈ st.calls ∨ c.text ≠ "" := by
  unfold procEvent at hc
  rw [handleEvent_calls] at hc
  exact fireIfDue_calls_mem te.1 st c hc

lemma foldl_calls_nonempty (evs : List (Nat × Ev)) (st : PanelState)
    (h : ∀ c ∈ st.calls, c.text ≠ "") :
    ∀ c ∈ (evs.foldl procEvent st).calls, c.text ≠ "" := by
  induction evs generalizing st with
  | nil => exact h
  | cons te rest ih =>
    refine ih (procEvent st te) ?_
    intro c hc
    cases procEvent_calls_mem st te c hc with
    | inl hmem => exact h c hmem
    | inr hne => exact hne

/-- C2 amended: on every input change — the empty string included — the
dispatcher schedules the debounce timer as usual; no network call is ever
dispatched carrying empty text (on any trace whatsoever), and when a timer
whose captured text is empty fires, it clears the displayed translated
text and dispatches nothing. -/
theorem empty_input_never_calls :
    (∀ evs : List (Nat × Ev), ∀ c ∈ (runTrace evs).calls, c.text ≠ "") ∧
    (∀ (st : PanelState) (d : Nat) (s l : String),
      st.timer = some (d, ⟨"", s, l⟩) →
      (fireTimer st).translatedText = "" ∧
      (fireTimer st).calls = st.calls ∧
      (fireTimer st).inflight = st.inflight) := by
  constructor
  · intro evs
    exact foldl_calls_nonempty evs initPanel (by intro c hc; simp [initPanel] at hc)
  · intro st d s l htm
    unfold fireTimer
    rw [htm]
    exact ⟨rfl, rfl, rfl⟩

/-- Witness for C2's amended statement: the one call of a concrete trace
has non-empty text, and firing a concrete empty-text timer clears the
display. -/
theorem empty_input_never_calls_witness :
    (⟨"Hi", "en-US", "es-ES"⟩ : Triple).text ≠ "" ∧
    (fireTimer { initPanel with
      timer := some (500, ⟨"", "en-US", "es-ES"⟩) }).translatedText = "" :=
  ⟨empty_input_never_calls.1 [(0, .setText "Hi"), (600, .setText "Yo")]
      ⟨"Hi", "en-US", "es-ES"⟩ (by decide),
   (empty_input_never_calls.2 _ 500 "en-US" "es-ES" rfl).1⟩

/-- Witness for C6 at a concrete state with one in-flight request. -/
theorem applyComplete_failure_witness :
    (applyComplete
      { initPanel with inflight := [(0, ⟨"Hello", "en-US", "es-ES"⟩)] }
      0 (.err "boom")).toasts =
      { initPanel with inflight := [(0, ⟨"Hello", "en-US", "es-ES"⟩)] }.toasts + 1 :=
  (applyComplete_failure
    { initPanel with inflight := [(0, ⟨"Hello", "en-US", "es-ES"⟩)] }
    0 "boom" (by decide)).1

lemma fireTimer_fires (st : PanelState) (d : Nat) (tr : Triple)
    (htm : st.timer = some (d, tr)) (hne : tr.text ≠ "") :
    (fireTimer st).calls = st.calls ++ [tr] ∧ (fireTimer st).timer = none := by
  unfold fireTimer
  simp only [htm]
  rw [if_neg hne]
  exact ⟨rfl, rfl⟩

/-- When every pending timer either is not yet due or carries empty text,
a (possible) premature fire leaves the call log and the dependency fields
unchanged. -/
lemma fireIfDue_quiet (t : Nat) (st : PanelState)
    (hok : ∀ d tr, st.timer = some (d, tr) → t < d ∨ tr.text = "") :
    (fireIfDue t st).calls = st.calls ∧
    (fireIfDue t st).originalText = st.originalText ∧
    (fireIfDue t st).sourceLanguage = st.sourceLanguage ∧
    (fireIfDue t st).targetLanguage = st.targetLanguage := by
  unfold fireIfDue
  split
  · rename_i d tr htm
    split
    · rename_i hd
      have hemp : tr.text = "" := by
        rcases hok d tr htm with h | h
        · omega
        · exact h
      unfold fireTimer
      simp only [htm]
      rw [if_pos hemp]
      exact ⟨rfl, rfl, rfl, rfl⟩
    · exact ⟨rfl, rfl, rfl, rfl⟩
  · exact ⟨rfl, rfl, rfl, rfl⟩

/-- Processing a dependency-changing setter event during a quiet-enough
state dispatches nothing and reschedules the timer with the new triple. -/
lemma procEvent_setter_step (st : PanelState) (t : Nat) (e : Ev)
    (hset : e.isSetter = true)
    (hch : applySetter st.triple e ≠ st.triple)
    (hok : ∀ d tr, st.timer = some (d, tr) → t < d ∨ tr.text = "") :
    (procEvent st (t, e)).calls = st.calls ∧
    (procEvent st (t, e)).triple = applySetter st.triple e ∧
    (procEvent st (t, e)).timer =
      some (t + DEBOUNCE_MS, applySetter st.triple e) := by
  obtain ⟨hc, ho, hs, htg⟩ := fireIfDue_quiet t st hok
  have htr : (fireIfDue t st).triple = st.triple := by
    unfold PanelState.triple
    rw [ho, hs, htg]
  cases e with
  | complete id r => simp [Ev.isSetter] at hset
  | swap => simp [Ev.isSetter] at hset
  | setText s =>
    have hpe : procEvent st (t, Ev.setText s) =
        runEffect t (fireIfDue t st).triple { fireIfDue t st with originalText := s } := rfl
    rw [hpe]
    simp only [runEffect]
    have h1 : ({ fireIfDue t st with originalText := s } : PanelState).triple =
        applySetter st.triple (.setText s) := by
      show (⟨s, (fireIfDue t st).sourceLanguage, (fireIfDue t st).targetLanguage⟩ : Triple) =
        ⟨s, st.sourceLanguage, st.targetLanguage⟩
      rw [hs, htg]
    rw [h1, htr, if_neg hch]
    exact ⟨hc, h1, rfl⟩
  | setSource s =>
    have hpe : procEvent st (t, Ev.setSource s) =
        runEffect t (fireIfDue t st).triple { fireIfDue t st with sourceLanguage := s } := rfl
    rw [hpe]
    simp only [runEffect]
    have h1 : ({ fireIfDue t st with sourceLanguage := s } : PanelState).triple =
        applySetter st.triple (.setSource s) := by
      show (⟨(fireIfDue t st).originalText, s, (fireIfDue t st).targetLanguage⟩ : Triple) =
        ⟨st.originalText, s, st.targetLanguage⟩
      rw [ho, htg]
    rw [h1, htr, if_neg hch]
    exact ⟨hc, h1, rfl⟩
  | setTarget s =>
    have hpe : procEvent st (t, Ev.setTarget s) =
        runEffect t (fireIfDue t st).triple { fireIfDue t st with targetLanguage := s } := rfl
    rw [hpe]
    simp only [runEffect]
    have h1 : ({ fireIfDue t st with targetLanguage := s } : PanelState).triple =
        applySetter st.triple (.setTarget s) := by
      show (⟨(fireIfDue t st).originalText, (fireIfDue t st).sourceLanguage, s⟩ : Triple) =
        ⟨st.originalText, st.sourceLanguage, s⟩
      rw [ho, hs]
    rw [h1, htr, if_neg hch]
    exact ⟨hc, h1, rfl⟩

/-- Core induction for debounce coalescing: through a burst of
dependency-changing setter events spaced closer than the quiet interval,
no call is dispatched, the dependency triple folds up, and the single
timer slot holds the last event's schedule. -/
lemma burst_aux (evs : List (Nat × Ev)) : ∀ (st : PanelState),
    allSetters evs = true → spaced evs = true →
    changing st.triple evs = true → timerOk evs st →
    (evs.foldl procEvent st).calls = st.calls ∧
    (evs.foldl procEvent st).triple = finalTriple st.triple evs ∧
    (evs ≠ [] → (evs.foldl procEvent st).timer =
      some (lastTime 0 evs + DEBOUNCE_MS, finalTriple st.triple evs)) := by
  induction evs with
  | nil =>
    intro st _ _ _ _
    exact ⟨rfl, rfl, fun h => absurd rfl h⟩
  | cons te rest ih =>
    obtain ⟨t, e⟩ := te
    intro st hall hsp hch hok
    have hall' : e.isSetter = true ∧ allSetters rest = true := by
      simpa [allSetters] using hall
    have hch' : applySetter st.triple e ≠ st.triple ∧
        changing (applySetter st.triple e) rest = true := by
      simpa [changing] using hch
    have hok1 : ∀ d tr, st.timer = some (d, tr) → t < d ∨ tr.text = "" := by
      intro d tr htm
      exact hok d tr htm
    obtain ⟨hc1, htr1, htm1⟩ := procEvent_setter_step st t e hall'.1 hch'.1 hok1
    have hstep : ((t, e) :: rest).foldl procEvent st = rest.foldl procEvent (procEvent st (t, e)) := rfl
    have hsp' : spaced rest = true := by
      cases rest with
      | nil => rfl
      | cons te2 r2 =>
        obtain ⟨t2, e2⟩ := te2
        simp only [spaced, Bool.and_eq_true] at hsp
        exact hsp.2
    have hoknext : timerOk rest (procEvent st (t, e)) := by
      intro d tr htm
      rw [htm1] at htm
      injection htm with hpair
      have hd : d = t + DEBOUNCE_MS := (congrArg Prod.fst hpair).symm
      cases rest with
      | nil => exact Or.inl trivial
      | cons te2 r2 =>
        obtain ⟨t2, e2⟩ := te2
        simp only [spaced, Bool.and_eq_true, decide_eq_true_eq] at hsp
        left
        show t2 < d
        omega
    have ihres := ih (procEvent st (t, e)) hall'.2 hsp'
      (by rw [htr1]; exact hch'.2) hoknext
    refine ⟨?_, ?_, ?_⟩
    · rw [hstep, ihres.1, hc1]
    · rw [hstep, ihres.2.1, htr1]
      rfl
    · intro _
      cases rest with
      | nil =>
        rw [hstep]
        exact htm1
      | cons te2 r2 =>
        rw [hstep, ihres.2.2 (by simp), htr1]
        rfl

/-- C3: Starting from mount, for every non-empty burst of
dependency-changing (text, sourceLanguage, targetLanguage) events spaced
strictly less than the 500 ms quiet interval apart, exactly one outbound
translation call is made once the quiet period elapses, and it carries the
triple current at the end of the burst (provided that final text is
non-empty). -/
theorem debounce_coalescing (evs : List (Nat × Ev))
    (hall : allSetters evs = true) (hsp : spaced evs = true)
    (hch : changing initPanel.triple evs = true) (hne : evs ≠ [])
    (htext : (finalTriple initPanel.triple evs).text ≠ "") :
    (settle (runTrace evs)).calls = [finalTriple initPanel.triple evs] ∧
    (settle (runTrace evs)).timer = none := by
  have hok : timerOk evs initPanel := by
    intro d tr htm
    right
    have : tr = ⟨"", "en-US", "es-ES"⟩ := by
      have h1 : (some (DEBOUNCE_MS, (⟨"", "en-US", "es-ES"⟩ : Triple)) :
          Option (Nat × Triple)) = some (d, tr) := htm
      injection h1 with h2
      exact (congrArg Prod.snd h2).symm
    rw [this]
  obtain ⟨hc, htr, htm⟩ := burst_aux evs initPanel hall hsp hch hok
  have htm' := htm hne
  have hfire := fireTimer_fires (runTrace evs) (lastTime 0 evs + DEBOUNCE_MS)
    (finalTriple initPanel.triple evs) htm' htext
  refine ⟨?_, hfire.2⟩
  rw [show (settle (runTrace evs)).calls = (fireTimer (runTrace evs)).calls from rfl,
      hfire.1, show (runTrace evs).calls = initPanel.calls from hc]
  rfl

/-- Witness for C3: typing "H", "He", "Hel", "Hell", "Hello" 100 ms apart
yields exactly one call, for "Hello". -/
theorem debounce_coalescing_witness :
    (settle (runTrace
      [(0, .setText "H"), (100, .setText "He"), (200, .setText "Hel"),
       (300, .setText "Hell"), (400, .setText "Hello")])).calls =
      [⟨"Hello", "en-US", "es-ES"⟩] := by
  have h := debounce_coalescing
    [(0, .setText "H"), (100, .setText "He"), (200, .setText "Hel"),
     (300, .setText "Hell"), (400, .setText "Hello")]
    (by decide) (by decide) (by decide) (by decide) (by decide)
  exact h.1.trans (by decide)

end MediTranslate
